import Mathlib

/-!
Verification of the multi-agent framework core: a shallow embedding of the
tool registry, the single-tool execution wrapper, the sequential and parallel
tool executors, the Bedrock tool-calling loop, the conversation history
operations, the SSE tool-call stream, and conversation persistence, together
with theorems settling the specification claims about them.

Conventions of the embedding:
* Python values that the code only ever renders with str() are modelled by
  their string image.
* A Python call that may raise is modelled as `Except String _`, the `String`
  being str(e) of the raised exception.
* Machine-level concerns (the aiohttp transport, timing) are outside the
  model; the model covers the pure data flow of the functions named below.
-/

/-- Tool arguments: a Python kwargs dict, modelled as an association list of
string keys to the string images of the values. -/
abbrev Args := List (String × String)

/-- The value returned by `BaseTool.execute` as inspected by
`CustomAgent._aexecute_single_tool` (src/agents/custom_agent.py lines
183-190): either a dict containing the key `success` (with the optional keys
`formatted_result`, `result` and `error` that the code reads), or any other
value.  The `rep` field carries the Python str() image of the whole value,
which the code uses in f-strings and for the tool message content. -/
inductive ToolValue where
  | plain (rep : String)
  | statusDict (success : Bool) (formatted_result : Option String)
      (result : Option String) (error : Option String) (rep : String)
deriving DecidableEq

/-- The str() image of a tool return value. -/
def ToolValue.str : ToolValue → String
  | .plain rep => rep
  | .statusDict _ _ _ _ rep => rep

/-- A tool callable: `execute(**kwargs)` may return a value or raise. -/
abbrev ToolFun := Args → Except String ToolValue

/-- `ToolRegistry._tools`: the name-to-tool dict
(src/tools/tool_registry.py line 9). -/
abbrev Registry := List (String × ToolFun)

/-- `ToolRegistry.get_tool` (src/tools/tool_registry.py lines 42-44):
a plain dict lookup. -/
def get_tool (registry : Registry) (name : String) : Option ToolFun :=
  registry.lookup name

/-- `ToolRegistry.execute_tool` (src/tools/tool_registry.py lines 50-56):
an unknown name raises ValueError, whose str() is the string below; a found
tool is executed and may itself raise. -/
def execute_tool (registry : Registry) (name : String) (args : Args) :
    Except String ToolValue :=
  match get_tool registry name with
  | none => Except.error ("Tool \x27" ++ name ++ "\x27 not found")
  | some tool => tool args

/-- One structured tool call as handed to the executor: the dicts with keys
`name`, `args`, `id` built by the providers.  `id` is `none` when the
provider response block carried no id. -/
structure ToolCall where
  name : String
  args : Args
  id : Option String
deriving DecidableEq, Inhabited

/-- One entry of a conversation history (`self.conversation_history`): the
LangChain message classes used by the code, plus the repository's own
`ToolCallMessage` (src/conversations/tool_message.py), whose content is
derived from its fields by its constructor. -/
inductive Message where
  | system (content : String)
  | human (content : String)
  | ai (content : String) (tool_calls : List ToolCall)
  | tool (content : String) (tool_call_id : String)
  | toolCallMessage (tool_name : String) (parameters : Args)
      (result : String) (success : Bool)
deriving DecidableEq

/-- The `tool_call_info` dict built by `_aexecute_single_tool`; on success
`result` is str() of the returned value, on exception it is str(e). -/
structure ToolCallInfo where
  tool_name : String
  params : Args
  result : String
  success : Bool
deriving DecidableEq

/-- The dict returned by `CustomAgent._aexecute_single_tool`. -/
structure SingleToolResult where
  tool_call_info : ToolCallInfo
  tool_message : Message
  formatted_display : String
deriving DecidableEq

instance : Inhabited SingleToolResult :=
  ⟨⟨⟨"", [], "", false⟩, Message.tool "" "", ""⟩⟩

/-- `CustomAgent._aexecute_single_tool` (src/agents/custom_agent.py lines
152-220).  The try block wraps the whole execution: any exception (including
the ValueError for an unknown tool) is converted into a failed result; the
function itself always returns a result dict, never raises.  On success the
display is built from the dict by the fallback chain
`result.get("formatted_result", result.get("result", result))`. -/
def aexecute_single_tool (registry : Registry) (tc : ToolCall) :
    SingleToolResult :=
  let tool_call_id := tc.id.getD ""
  match execute_tool registry tc.name tc.args with
  | Except.ok result =>
    { tool_call_info := ⟨tc.name, tc.args, result.str, true⟩
      tool_message := Message.tool result.str tool_call_id
      formatted_display :=
        match result with
        | .statusDict true fr r _ rep =>
            "**" ++ tc.name ++ "**: " ++ fr.getD (r.getD rep)
        | .statusDict false _ _ e _ =>
            "**" ++ tc.name ++ " Error**: " ++ e.getD "Unknown error"
        | .plain rep => "**" ++ tc.name ++ "**: " ++ rep }
  | Except.error e =>
    { tool_call_info := ⟨tc.name, tc.args, e, false⟩
      tool_message := Message.tool ("Error: " ++ e) tool_call_id
      formatted_display := "**Tool Error**: " ++ e }

/-- `CustomAgent._aexecute_tools_sequential` (src/agents/custom_agent.py
lines 226-240): run each call in input order, collecting the tool messages
and the display strings. -/
def aexecute_tools_sequential (registry : Registry)
    (tool_calls : List ToolCall) : List Message × List String :=
  (tool_calls.map fun tc => (aexecute_single_tool registry tc).tool_message,
   tool_calls.map fun tc => (aexecute_single_tool registry tc).formatted_display)

/-- The result-slot mechanism of `asyncio.gather`: gather preallocates one
result slot per child task and, as each task completes, writes its result
into the slot of that task's original position.  `order` is the order in
which the event loop completes the tasks. -/
def fillSlots (f : Nat → α) (order : List Nat) (slots : List (Option α)) :
    List (Option α) :=
  order.foldl (fun s i => s.set i (some (f i))) slots

/-- `CustomAgent._aexecute_tools_parallel` (src/agents/custom_agent.py lines
246-297): all single-tool coroutines are handed to `asyncio.gather`, the
event loop completes them in an arbitrary order `order`, and the for loop
then collects tool messages and display strings from the gathered list in
slot order.  Because `_aexecute_single_tool` catches every exception and
returns a dict, the gathered entries are never exceptions and the
`isinstance(result_info, Exception)` branch is dead in this model. -/
def aexecute_tools_parallel (registry : Registry) (tool_calls : List ToolCall)
    (order : List Nat) : List Message × List String :=
  let results :=
    (fillSlots (fun i => aexecute_single_tool registry (tool_calls.getD i default))
        order (List.replicate tool_calls.length none)).map
      (fun o => o.getD default)
  (results.map SingleToolResult.tool_message,
   results.map SingleToolResult.formatted_display)

/-- One content block of a Bedrock response, as inspected by
`BedrockBearerProvider.ainvoke_with_tools` (src/agents/model_providers/
bedrock_bearer_provider.py lines 226-255): `tool_use` blocks become tool
calls, `text` blocks are concatenated, anything else is ignored. -/
inductive ContentBlock where
  | text (s : String)
  | toolUse (id : Option String) (name : String) (input : Args)
  | other
deriving DecidableEq

/-- The block-parsing loop of `ainvoke_with_tools`: collect the tool calls
in order and join the text blocks in order. -/
def parseBlocks : List ContentBlock → List ToolCall × String
  | [] => ([], "")
  | b :: rest =>
    let parsed := parseBlocks rest
    match b with
    | .text s => (parsed.1, s ++ parsed.2)
    | .toolUse id name input => (⟨name, input, id⟩ :: parsed.1, parsed.2)
    | .other => parsed

/-- A LangChain tool as invoked inside the Bedrock loop: returns the str()
image of its result, or raises. -/
abbrev BedrockTool := Args → Except String String

/-- The per-call tool execution of the Bedrock loop (src/agents/
model_providers/bedrock_bearer_provider.py lines 285-378): the first tool
whose name matches is run; a missing tool or a raised exception becomes an
error string used as the tool result. -/
def bedrockExecTool (tools : List (String × BedrockTool)) (tc : ToolCall) :
    String :=
  match tools.lookup tc.name with
  | none => "Tool " ++ tc.name ++ " not found"
  | some tool =>
    match tool tc.args with
    | Except.ok r => r
    | Except.error e => "Error executing tool " ++ tc.name ++ ": " ++ e

/-- The value of `ainvoke_with_tools` in the model: the returned content,
the final `working_messages`, and how many times `_make_bedrock_call` was
invoked. -/
structure BedrockLoopResult where
  content : String
  messages : List Message
  modelCalls : Nat
deriving DecidableEq

/-- The `while iteration < max_iterations` loop of
`BedrockBearerProvider.ainvoke_with_tools` (src/agents/model_providers/
bedrock_bearer_provider.py lines 207-391), with the remaining iteration
budget as fuel.  `model` maps the current message list to the content blocks
of the next response (the HTTP transport is outside the model; a transport
error would abort the whole call and is not a loop outcome).  A response
without tool calls appends the final AI message and returns; otherwise the
assistant message and one tool message per call (in call order) are appended
and the loop repeats. -/
def bedrockLoop (model : List Message → List ContentBlock)
    (tools : List (String × BedrockTool)) :
    Nat → List Message → Nat → BedrockLoopResult
  | 0, msgs, calls =>
    ⟨"Error: Maximum tool execution iterations reached", msgs, calls⟩
  | fuel + 1, msgs, calls =>
    let parsed := parseBlocks (model msgs)
    if parsed.1.isEmpty then
      ⟨parsed.2, msgs ++ [Message.ai parsed.2 []], calls + 1⟩
    else
      bedrockLoop model tools fuel
        (msgs ++ Message.ai parsed.2 parsed.1 ::
          parsed.1.map (fun tc =>
            Message.tool (bedrockExecTool tools tc) (tc.id.getD "")))
        (calls + 1)

/-- `max_iterations = 20` (src/agents/model_providers/
bedrock_bearer_provider.py line 209). -/
def max_iterations : Nat := 20

/-- `BedrockBearerProvider.ainvoke_with_tools` on a working copy of the
incoming messages, starting from iteration 0. -/
def ainvoke_with_tools (model : List Message → List ContentBlock)
    (tools : List (String × BedrockTool)) (messages : List Message) :
    BedrockLoopResult :=
  bedrockLoop model tools max_iterations messages 0

/-- `CustomAgent._ahandle_structured_tool_calls` (src/agents/custom_agent.py
lines 109-146) acting on the conversation history: append the AI message
carrying the tool calls, execute the tools (parallel when the flag is set
and more than one call arrived, sequential otherwise), then extend the
history with all tool messages.  Returns the new history and the combined
display string. -/
def ahandle_structured_tool_calls (registry : Registry)
    (parallel_execution : Bool) (order : List Nat)
    (history : List Message) (content : String)
    (tool_calls : List ToolCall) : List Message × String :=
  let history1 := history ++ [Message.ai content tool_calls]
  let executed :=
    if parallel_execution ∧ tool_calls.length > 1 then
      aexecute_tools_parallel registry tool_calls order
    else
      aexecute_tools_sequential registry tool_calls
  let history2 := history1 ++ executed.1
  let display :=
    if executed.2.isEmpty then
      (if content = "" then "No tool results available." else content)
    else
      (if content = "" then String.intercalate "\n" executed.2
       else content ++ "\n\n" ++ String.intercalate "\n" executed.2)
  (history2, display)

/-- `self.conversation_history.extend(tool_messages)`
(src/agents/custom_agent.py line 137): the conversation history is a plain
Python list; extend appends unconditionally, with no validation of any
kind. -/
def extendHistory (history msgs : List Message) : List Message :=
  history ++ msgs

/-- The tool calls of an assistant message. -/
def assistantToolCalls : Message → List ToolCall
  | .ai _ tcs => tcs
  | _ => []

/-- Whether a message is an assistant message. -/
def isAssistantMessage : Message → Bool
  | .ai _ _ => true
  | _ => false

/-- Modelled from the spec wording of the C6 invariant: the pending tool-call
ids of the most recent assistant turn of a history (ids default to the empty
string the way `tool_call.get("id", "")` does).  The code has no such
bookkeeping; this definition only serves to state the claim. -/
def lastAssistantToolCallIds (history : List Message) : List String :=
  match history.reverse.find? isAssistantMessage with
  | none => []
  | some m => (assistantToolCalls m).map (fun tc => tc.id.getD "")

/-- Whether a message is a SystemMessage. -/
def isSystemMessage : Message → Bool
  | .system _ => true
  | _ => false

/-- The system-prompt insertion step shared by `BaseAgent.ainvoke`
(src/agents/base_agent.py lines 54-59) and `CustomAgent.ainvoke`
(src/agents/custom_agent.py lines 557-562): append a system message only
when the configured prompt is non-empty (truthy) and no SystemMessage is in
the history yet. -/
def systemPromptInsert (system_prompt : String) (history : List Message) :
    List Message :=
  if system_prompt ≠ "" ∧ history.any isSystemMessage = false then
    history ++ [Message.system system_prompt]
  else history

/-- The three shapes of provider response that
`CustomAgent._aprocess_with_structured_tools` (src/agents/custom_agent.py
lines 80-103) distinguishes: a plain text response, a dict with `tool_calls`
(handled by `_ahandle_structured_tool_calls`), or a Bedrock-style provider
that manages the conversation itself, in which case the history is replaced
by the messages the provider returns. -/
inductive ProviderResponse where
  | plainText (text : String)
  | structuredToolCalls (content : String) (tool_calls : List ToolCall)
  | providerManaged (model : List Message → List ContentBlock)
      (tools : List (String × BedrockTool))

/-- `CustomAgent.ainvoke` (src/agents/custom_agent.py lines 557-588) acting
on the conversation history: insert the system prompt if needed, append the
user message, process it, and append the AI response message unless the
provider managed the history itself (in which case the history becomes the
message list the provider returned). -/
def custom_ainvoke (registry : Registry) (parallel_execution : Bool)
    (order : List Nat) (system_prompt : String) (history : List Message)
    (message : String) (resp : ProviderResponse) : List Message :=
  let h := systemPromptInsert system_prompt history ++ [Message.human message]
  match resp with
  | .plainText text => h ++ [Message.ai text []]
  | .structuredToolCalls content tcs =>
    let handled := ahandle_structured_tool_calls registry parallel_execution
      order h content tcs
    handled.1 ++ [Message.ai handled.2 []]
  | .providerManaged model tools =>
    (ainvoke_with_tools model tools h).messages

/-- A stream event is a JSON-serialisable dict; the model carries only its
identity. -/
abbrev StreamEvent := String

/-- `ToolCallStream` (src/api/router.py lines 30-56): the bounded
`asyncio.Queue` (front of the list is the oldest entry), the active flag and
the last-activity timestamp. -/
structure ToolCallStream where
  queue : List StreamEvent
  is_active : Bool
  last_activity : Nat
deriving DecidableEq

/-- The queue capacity `maxsize=10` (src/api/router.py line 35). -/
def maxsize : Nat := 10

/-- `ToolCallStream.send_event` (src/api/router.py lines 42-56): an inactive
stream returns immediately without touching the queue; otherwise the
activity timestamp is refreshed and the event enqueued with `put_nowait`;
when the queue is full, `QueueFull` is caught, the oldest entry removed with
`get_nowait`, and the event enqueued (the `QueueEmpty` branch is unreachable
since a full queue of capacity 10 is non-empty).  No branch ever waits. -/
def send_event (s : ToolCallStream) (now : Nat) (event : StreamEvent) :
    ToolCallStream :=
  if s.is_active = false then s
  else if s.queue.length < maxsize then
    { s with queue := s.queue ++ [event], last_activity := now }
  else
    { s with queue := s.queue.tail ++ [event], last_activity := now }

/-- An observable event of one tool-task inside one parallel batch: the task
with input position `i` starts, or finishes. -/
inductive TaskEvent where
  | start (i : Nat)
  | finish (i : Nat)
deriving DecidableEq

/-- Number of tool invocations in flight after one more event. -/
def applyTaskEvent (c : Nat) : TaskEvent → Nat
  | .start _ => c + 1
  | .finish _ => c - 1

/-- The largest number of tool invocations simultaneously in flight along a
trace of task events. -/
def peakInFlight (trace : List TaskEvent) : Nat :=
  (trace.scanl applyTaskEvent 0).foldl max 0

/-- An admissible trace of `CustomAgent._aexecute_tools_parallel`
(src/agents/custom_agent.py lines 254-259): the list comprehension creates
one coroutine per tool call and hands all of them to `asyncio.gather`, which
schedules every task; nothing in the code (no semaphore, no use of
`self.max_parallel_tools`) defers any start until an earlier task finishes,
so with slow tools all `n` executions start before any completes, and the
completions then arrive in some order. -/
def parallelGatherTrace (n : Nat) (completionOrder : List Nat) :
    List TaskEvent :=
  (List.range n).map TaskEvent.start ++ completionOrder.map TaskEvent.finish

/-- `self.max_parallel_tools = config.get("max_parallel_tools", 2)`
(src/agents/custom_agent.py line 17), at its default; the comment on that
line reads "Limit concurrent tools", but the attribute is never read again
anywhere in the repository. -/
def max_parallel_tools_default : Nat := 2

/-- The serialised form of one message inside a saved conversation file, as
written by `ConversationManager.save_conversation`
(src/conversations/conversation_manager.py lines 29-56): the class name, the
content, the four extra fields for a ToolCallMessage, and the `tool_calls`
list for an AIMessage that has tool calls (ids serialised with
`tc.get("id", "")`). -/
structure SavedMessage where
  type : String
  content : String
  tool_name : Option String := none
  parameters : Option Args := none
  result : Option String := none
  success : Option Bool := none
  tool_calls : Option (List (String × Args × String)) := none
deriving DecidableEq

/-- The class name of a message, `message.__class__.__name__`. -/
def messageType : Message → String
  | .system _ => "SystemMessage"
  | .human _ => "HumanMessage"
  | .ai _ _ => "AIMessage"
  | .tool _ _ => "ToolMessage"
  | .toolCallMessage _ _ _ _ => "ToolCallMessage"

/-- The content string a `ToolCallMessage` constructor derives from its
fields (src/conversations/tool_message.py lines 14-19). -/
def toolCallMessageContent (tool_name : String) (parameters : Args)
    (result : String) (success : Bool) : String :=
  "Tool Call: " ++ tool_name ++ "(" ++
    String.intercalate ", " (parameters.map fun p => p.1 ++ "=" ++ p.2) ++
    ")" ++ (if success then " -> " ++ result else " -> ERROR: " ++ result)

/-- `message.content` for each message class. -/
def messageContent : Message → String
  | .system c => c
  | .human c => c
  | .ai c _ => c
  | .tool c _ => c
  | .toolCallMessage n p r s => toolCallMessageContent n p r s

/-- `ConversationManager.save_conversation` restricted to the message list
it serialises (src/conversations/conversation_manager.py lines 17-61); the
file-system write and the timestamps are outside the model. -/
def save_conversation (messages : List Message) : List SavedMessage :=
  messages.map fun m =>
    { type := messageType m
      content := messageContent m
      tool_name := match m with
        | .toolCallMessage n _ _ _ => some n
        | _ => none
      parameters := match m with
        | .toolCallMessage _ p _ _ => some p
        | _ => none
      result := match m with
        | .toolCallMessage _ _ r _ => some r
        | _ => none
      success := match m with
        | .toolCallMessage _ _ _ s => some s
        | _ => none
      tool_calls := match m with
        | .ai _ tcs =>
          if tcs.isEmpty then none
          else some (tcs.map fun tc => (tc.name, tc.args, tc.id.getD ""))
        | _ => none }

/-- `ConversationManager.load_conversation` restricted to rebuilding the
message list from the serialised entries (src/conversations/
conversation_manager.py lines 74-93): only the four listed class names are
rebuilt, an AIMessage is rebuilt from its content alone, and every other
type (notably `ToolMessage`) is skipped.  The ToolCallMessage fields are
read by key; on data produced by `save_conversation` the keys are always
present, which the `getD` defaults reflect. -/
def load_conversation (saved : List SavedMessage) : List Message :=
  saved.filterMap fun s =>
    if s.type = "HumanMessage" then some (Message.human s.content)
    else if s.type = "AIMessage" then some (Message.ai s.content [])
    else if s.type = "SystemMessage" then some (Message.system s.content)
    else if s.type = "ToolCallMessage" then
      some (Message.toolCallMessage (s.tool_name.getD "")
        (s.parameters.getD []) (s.result.getD "") (s.success.getD true))
    else none

/-- The image of one message under a save/load round trip according to the
code: human, system and ToolCallMessage entries survive unchanged, an
assistant message keeps only its content (its tool calls are not restored),
and a LangChain ToolMessage is dropped. -/
def reloadedImage : Message → Option Message
  | .system c => some (Message.system c)
  | .human c => some (Message.human c)
  | .ai c _ => some (Message.ai c [])
  | .tool _ _ => none
  | .toolCallMessage n p r s => some (Message.toolCallMessage n p r s)

theorem fillSlots_cons (f : Nat → α) (j : Nat) (rest : List Nat)
    (slots : List (Option α)) :
    fillSlots f (j :: rest) slots =
      fillSlots f rest (slots.set j (some (f j))) :=
  rfl

theorem fillSlots_length (f : Nat → α) (order : List Nat)
    (slots : List (Option α)) :
    (fillSlots f order slots).length = slots.length := by
  induction order generalizing slots with
  | nil => rfl
  | cons j rest ih => rw [fillSlots_cons, ih, List.length_set]

theorem fillSlots_getElem?_of_not_mem (f : Nat → α) {order : List Nat}
    {i : Nat} (h : i ∉ order) (slots : List (Option α)) :
    (fillSlots f order slots)[i]? = slots[i]? := by
  induction order generalizing slots with
  | nil => rfl
  | cons j rest ih =>
    rw [fillSlots_cons, ih (fun hm => h (List.mem_cons_of_mem _ hm))]
    apply List.getElem?_set_ne
    intro hji
    subst hji
    exact h (List.mem_cons_self _ _)

theorem fillSlots_getElem?_of_mem (f : Nat → α) {order : List Nat} {i : Nat}
    (hmem : i ∈ order) (hnd : order.Nodup) (slots : List (Option α))
    (hlen : i < slots.length) :
    (fillSlots f order slots)[i]? = some (some (f i)) := by
  induction order generalizing slots with
  | nil => cases hmem
  | cons j rest ih =>
    rw [fillSlots_cons]
    rcases List.mem_cons.mp hmem with hij | hmem2
    · subst hij
      have hnotin : i ∉ rest := (List.nodup_cons.mp hnd).1
      rw [fillSlots_getElem?_of_not_mem f hnotin]
      exact List.getElem?_set_self hlen
    · exact ih hmem2 (List.nodup_cons.mp hnd).2 _ (by simpa using hlen)

theorem fillSlots_perm_range (f : Nat → α) {n : Nat} {order : List Nat}
    (horder : order.Perm (List.range n)) :
    fillSlots f order (List.replicate n none) =
      (List.range n).map (fun i => some (f i)) := by
  have hnd : order.Nodup := horder.nodup_iff.mpr (List.nodup_range n)
  apply List.ext_getElem?
  intro i
  by_cases hi : i < n
  · have hmem : i ∈ order := horder.mem_iff.mpr (List.mem_range.mpr hi)
    rw [fillSlots_getElem?_of_mem f hmem hnd _ (by simpa using hi),
      List.getElem?_map, List.getElem?_range hi]
    rfl
  · have hle : n ≤ i := Nat.le_of_not_lt hi
    rw [List.getElem?_eq_none (by rw [fillSlots_length]; simpa using hle),
      List.getElem?_eq_none (by simpa using hle)]

theorem map_getD_range (g : α → β) (d : α) (l : List α) :
    (List.range l.length).map (fun i => g (l.getD i d)) = l.map g := by
  induction l with
  | nil => rfl
  | cons a t ih =>
    rw [List.length_cons, List.range_succ_eq_map, List.map_cons,
      List.map_map, List.map_cons]
    exact congrArg (g a :: ·) ih

theorem parallel_eq_sequential (registry : Registry)
    (tool_calls : List ToolCall) {order : List Nat}
    (horder : order.Perm (List.range tool_calls.length)) :
    aexecute_tools_parallel registry tool_calls order =
      aexecute_tools_sequential registry tool_calls := by
  unfold aexecute_tools_parallel aexecute_tools_sequential
  rw [fillSlots_perm_range
    (fun i => aexecute_single_tool registry (tool_calls.getD i default)) horder]
  simp only [List.map_map]
  rw [Prod.mk.injEq]
  exact ⟨map_getD_range
      (fun tc => (aexecute_single_tool registry tc).tool_message) default
      tool_calls,
    map_getD_range
      (fun tc => (aexecute_single_tool registry tc).formatted_display) default
      tool_calls⟩

/-- A small concrete registry used to evaluate the theorems on concrete
inputs: `calc` returns a success dict, `boom` raises. -/
def wRegistry : Registry :=
  [("calc", fun _ =>
      Except.ok (ToolValue.statusDict true (some "4") none none "dict")),
   ("boom", fun _ => Except.error "boom failed")]

/-- Three concrete tool calls: a succeeding one, an unknown tool, and a
raising one. -/
def wCalls : List ToolCall :=
  [⟨"calc", [("expression", "2+2")], some "id1"⟩,
   ⟨"missing", [], some "id2"⟩,
   ⟨"boom", [], none⟩]

/-- Claim C1: in parallel mode, for every completion order of the tool
tasks, the tool messages and the display strings returned by
`_aexecute_tools_parallel` are in the same order as the input request
sequence (identical to a sequential run over the inputs in order). -/
theorem c1_parallel_results_in_input_order (registry : Registry)
    (tool_calls : List ToolCall) (order : List Nat)
    (horder : order.Perm (List.range tool_calls.length)) :
    aexecute_tools_parallel registry tool_calls order =
      (tool_calls.map fun tc => (aexecute_single_tool registry tc).tool_message,
       tool_calls.map fun tc =>
         (aexecute_single_tool registry tc).formatted_display) :=
  parallel_eq_sequential registry tool_calls horder

/-- Witness for C1 at a concrete input: three tool calls completing in the
order 2, 0, 1 still produce results in input order. -/
theorem c1_parallel_results_in_input_order_witness :
    (([2, 0, 1] : List Nat).Perm (List.range wCalls.length)) ∧
    aexecute_tools_parallel wRegistry wCalls [2, 0, 1] =
      (wCalls.map fun tc => (aexecute_single_tool wRegistry tc).tool_message,
       wCalls.map fun tc =>
         (aexecute_single_tool wRegistry tc).formatted_display) :=
  ⟨by decide,
   c1_parallel_results_in_input_order wRegistry wCalls [2, 0, 1] (by decide)⟩

/-- Claim C2 (code bug): `_aexecute_tools_parallel` hands all tool
coroutines to `asyncio.gather` and never consults `max_parallel_tools`, so
the admissible trace in which three slow tool tasks all start before any
completes reaches three simultaneous in-flight executions, exceeding the
default configured limit of two. -/
theorem c2_inflight_exceeds_configured_limit :
    peakInFlight (parallelGatherTrace 3 [0, 1, 2]) = 3 ∧
    max_parallel_tools_default < peakInFlight (parallelGatherTrace 3 [0, 1, 2]) := by
  decide

/-- Helper: a non-empty string prepended to anything gives a non-empty
string. -/
theorem append_ne_empty_left (a b : String) (h : a.length ≠ 0) :
    a ++ b ≠ "" := by
  intro hc
  apply h
  have hl := congrArg String.length hc
  rw [String.length_append, show ("" : String).length = 0 from rfl] at hl
  omega

/-- Claim C3: an unknown tool name makes `execute_tool` raise ValueError,
and any exception raised inside the execution (including that one) is caught
by `_aexecute_single_tool` and converted into a result with
`success = false` whose tool message content and display string are
non-empty; the function returns this result instead of propagating the
exception (in this embedding it is a total function into results — the raise
appears only as data). -/
theorem c3_errors_contained (registry : Registry) (tc : ToolCall) :
    (get_tool registry tc.name = none →
      execute_tool registry tc.name tc.args =
        Except.error ("Tool \x27" ++ tc.name ++ "\x27 not found")) ∧
    (∀ e, execute_tool registry tc.name tc.args = Except.error e →
      (aexecute_single_tool registry tc).tool_call_info.success = false ∧
      (aexecute_single_tool registry tc).tool_message =
        Message.tool ("Error: " ++ e) (tc.id.getD "") ∧
      messageContent (aexecute_single_tool registry tc).tool_message ≠ "" ∧
      (aexecute_single_tool registry tc).formatted_display ≠ "") := by
  constructor
  · intro h
    unfold execute_tool
    rw [h]
  · intro e he
    unfold aexecute_single_tool
    rw [he]
    refine ⟨rfl, rfl, ?_, ?_⟩
    · exact append_ne_empty_left "Error: " e (by decide)
    · exact append_ne_empty_left "**Tool Error**: " e (by decide)

/-- Witness for C3 at a concrete input: the unknown tool name `missing`
yields a failed result with non-empty error content. -/
theorem c3_errors_contained_witness :
    (aexecute_single_tool wRegistry ⟨"missing", [], some "id2"⟩).tool_call_info.success = false ∧
    messageContent (aexecute_single_tool wRegistry ⟨"missing", [], some "id2"⟩).tool_message ≠ "" := by
  have h := (c3_errors_contained wRegistry ⟨"missing", [], some "id2"⟩).2
    ("Tool \x27missing\x27 not found") rfl
  exact ⟨h.1, h.2.2.1⟩

theorem bedrockLoop_calls_le (model : List Message → List ContentBlock)
    (tools : List (String × BedrockTool)) (fuel : Nat) :
    ∀ (msgs : List Message) (calls : Nat),
      (bedrockLoop model tools fuel msgs calls).modelCalls ≤ calls + fuel := by
  induction fuel with
  | zero => intro msgs calls; simp [bedrockLoop]
  | succ n ih =>
    intro msgs calls
    simp only [bedrockLoop]
    split
    · simp
    · exact le_trans (ih _ (calls + 1)) (by omega)

theorem bedrockLoop_always_tools (model : List Message → List ContentBlock)
    (tools : List (String × BedrockTool))
    (h : ∀ msgs, (parseBlocks (model msgs)).1.isEmpty = false) (fuel : Nat) :
    ∀ (msgs : List Message) (calls : Nat),
      (bedrockLoop model tools fuel msgs calls).content =
        "Error: Maximum tool execution iterations reached" ∧
      (bedrockLoop model tools fuel msgs calls).modelCalls = calls + fuel := by
  induction fuel with
  | zero => intro msgs calls; exact ⟨rfl, by simp [bedrockLoop]⟩
  | succ n ih =>
    intro msgs calls
    simp only [bedrockLoop, h msgs, Bool.false_eq_true, if_false]
    have hh := ih (msgs ++ Message.ai (parseBlocks (model msgs)).2
        (parseBlocks (model msgs)).1 ::
        (parseBlocks (model msgs)).1.map (fun tc =>
          Message.tool (bedrockExecTool tools tc) (tc.id.getD "")))
      (calls + 1)
    exact ⟨hh.1, hh.2.trans (by omega)⟩

/-- Claim C4: `ainvoke_with_tools` makes at most `max_iterations = 20` model
calls; when every model response requests further tool calls it makes
exactly 20 and returns the explicit maximum-iterations message, never
invoking the model a 21st time. -/
theorem c4_iteration_cap (model : List Message → List ContentBlock)
    (tools : List (String × BedrockTool)) (messages : List Message) :
    (ainvoke_with_tools model tools messages).modelCalls ≤ max_iterations ∧
    ((∀ msgs, (parseBlocks (model msgs)).1.isEmpty = false) →
      (ainvoke_with_tools model tools messages).modelCalls = max_iterations ∧
      (ainvoke_with_tools model tools messages).content =
        "Error: Maximum tool execution iterations reached") := by
  constructor
  · simpa using bedrockLoop_calls_le model tools max_iterations messages 0
  · intro h
    have hh := bedrockLoop_always_tools model tools h max_iterations messages 0
    exact ⟨by simpa using hh.2, hh.1⟩

/-- A model that requests a tool call on every round. -/
def wModel : List Message → List ContentBlock :=
  fun _ => [ContentBlock.toolUse (some "t1") "calc" [("expression", "1+1")]]

/-- Witness for C4 at a concrete input: a model that always requests tools
is invoked exactly 20 times and the loop returns the cap message. -/
theorem c4_iteration_cap_witness :
    (ainvoke_with_tools wModel [] []).modelCalls = max_iterations ∧
    (ainvoke_with_tools wModel [] []).content =
      "Error: Maximum tool execution iterations reached" :=
  (c4_iteration_cap wModel [] []).2 (fun _ => rfl)

/-- Claim C5 counterexample: on an inactive stream (for example after
`cleanup` or a kill), `send_event` with a full queue leaves the queue
unchanged and the newest event is not admitted, contradicting the claim
quantified over every stream state. -/
theorem c5_counterexample :
    (send_event ⟨List.replicate maxsize "old", false, 0⟩ 1 "new").queue =
      List.replicate maxsize "old" ∧
    "new" ∉ (send_event ⟨List.replicate maxsize "old", false, 0⟩ 1 "new").queue := by
  decide

/-- Claim C5 amended: on an ACTIVE stream, `send_event` never lets the queue
exceed its capacity, and on a full queue it removes the oldest queued event
and appends the new one, which becomes the newest entry; an inactive stream
drops the event (still without blocking). -/
theorem c5_active_send_event_bounded (s : ToolCallStream) (now : Nat)
    (e : StreamEvent) (hact : s.is_active = true) :
    (s.queue.length ≤ maxsize → (send_event s now e).queue.length ≤ maxsize) ∧
    (s.queue.length = maxsize →
      (send_event s now e).queue = s.queue.tail ++ [e] ∧
      (send_event s now e).queue.length = maxsize ∧
      (send_event s now e).queue.getLast? = some e) := by
  have hms : maxsize = 10 := rfl
  constructor
  · intro hle
    rw [hms] at hle
    by_cases hlt : s.queue.length < maxsize
    · have hlt10 : s.queue.length < 10 := by rw [hms] at hlt; exact hlt
      simp [send_event, hact, hms, hlt10]
      omega
    · have hge : ¬ s.queue.length < 10 := by rw [hms] at hlt; exact hlt
      simp [send_event, hact, hms, hge]
      omega
  · intro hfull
    have hnlt : ¬ s.queue.length < maxsize := by rw [hms] at hfull ⊢; omega
    have hne : s.queue ≠ [] := by
      intro hnil
      rw [hnil] at hfull
      rw [hms] at hfull
      cases hfull
    refine ⟨by simp [send_event, hact, hnlt], ?_, ?_⟩
    · simp [send_event, hact, hnlt]
      rw [hms] at hfull ⊢
      omega
    · simp [send_event, hact, hnlt, List.getLast?_append]

/-- Witness for the amended C5 at a concrete input: an active full stream
evicts the oldest entry and admits the new one. -/
theorem c5_active_send_event_bounded_witness :
    (send_event ⟨List.replicate maxsize "old", true, 0⟩ 5 "new").queue =
      (List.replicate maxsize "old").tail ++ ["new"] ∧
    (send_event ⟨List.replicate maxsize "old", true, 0⟩ 5 "new").queue.length =
      maxsize := by
  have h := (c5_active_send_event_bounded
    ⟨List.replicate maxsize "old", true, 0⟩ 5 "new" rfl).2 (by decide)
  exact ⟨h.1, h.2.1⟩

/-- The tool_call_id of a message, when it is a tool message. -/
def toolCallIdOf : Message → Option String
  | .tool _ i => some i
  | _ => none

theorem toolCallIdOf_single (registry : Registry) (tc : ToolCall) :
    toolCallIdOf (aexecute_single_tool registry tc).tool_message =
      some (tc.id.getD "") := by
  unfold aexecute_single_tool
  cases execute_tool registry tc.name tc.args <;> rfl

theorem ahandle_history_eq (registry : Registry) (parallel_execution : Bool)
    (order : List Nat) (history : List Message) (content : String)
    (tool_calls : List ToolCall)
    (horder : order.Perm (List.range tool_calls.length)) :
    (ahandle_structured_tool_calls registry parallel_execution order history
        content tool_calls).1 =
      history ++ Message.ai content tool_calls ::
        tool_calls.map (fun tc => (aexecute_single_tool registry tc).tool_message) := by
  unfold ahandle_structured_tool_calls
  by_cases hpar : parallel_execution ∧ tool_calls.length > 1
  · simp only [hpar, if_true, parallel_eq_sequential registry tool_calls horder,
      aexecute_tools_sequential]
    simp
  · simp only [hpar, if_false, aexecute_tools_sequential]
    simp

/-- A one-call history used as the C6 counterexample context: its latest
assistant turn requests exactly one tool call with id `A`. -/
def c6History : List Message := [Message.ai "" [⟨"calc", [], some "A"⟩]]

/-- Claim C6 counterexample: the conversation history is a plain Python
list; `extend` appends without any validation, so a tool turn whose
tool_call_id `B` matches no pending tool-call id of the most recent
assistant turn still enters the conversation history. -/
theorem c6_counterexample :
    Message.tool "out" "B" ∈ extendHistory c6History [Message.tool "out" "B"] ∧
    "B" ∉ lastAssistantToolCallIds c6History := by
  decide

/-- Claim C6 amended: the code performs no validation on append, but in the
structured tool-call flow every tool turn added after the assistant turn is
built from that assistant turn's own tool_calls, so its tool_call_id is one
of that turn's ids (a missing id defaulting to the empty string). -/
theorem c6_structured_tool_turn_ids (registry : Registry)
    (parallel_execution : Bool) (order : List Nat) (history : List Message)
    (content : String) (tool_calls : List ToolCall)
    (horder : order.Perm (List.range tool_calls.length)) :
    ∀ m ∈ (ahandle_structured_tool_calls registry parallel_execution order
        history content tool_calls).1.drop (history.length + 1),
      toolCallIdOf m ∈ tool_calls.map (fun tc => some (tc.id.getD "")) := by
  intro m hm
  rw [ahandle_history_eq registry parallel_execution order history content
    tool_calls horder] at hm
  rw [show (history ++ Message.ai content tool_calls ::
      tool_calls.map (fun tc => (aexecute_single_tool registry tc).tool_message)) =
    (history ++ [Message.ai content tool_calls]) ++
      tool_calls.map (fun tc => (aexecute_single_tool registry tc).tool_message)
    from by simp] at hm
  rw [show history.length + 1 = (history ++ [Message.ai content tool_calls]).length
    from by simp] at hm
  rw [List.drop_left] at hm
  rcases List.mem_map.mp hm with ⟨tc, htc, rfl⟩
  exact List.mem_map.mpr ⟨tc, htc, (toolCallIdOf_single registry tc).symm⟩

/-- Witness for the amended C6 at a concrete input: the single tool turn
produced for the call with id `A` carries tool_call_id `A`. -/
theorem c6_structured_tool_turn_ids_witness :
    toolCallIdOf (Message.tool "dict" "A") ∈
      ([⟨"calc", [], some "A"⟩] : List ToolCall).map
        (fun tc => some (tc.id.getD "")) :=
  c6_structured_tool_turn_ids wRegistry false [0] [] "" [⟨"calc", [], some "A"⟩]
    (by decide) (Message.tool "dict" "A") (by decide)

/-- Claim C7: `_ahandle_structured_tool_calls` appends the assistant turn
carrying the tool calls to the history first, and then one tool turn per
result, in the executor result order (which equals the input order). -/
theorem c7_assistant_turn_before_tool_turns (registry : Registry)
    (parallel_execution : Bool) (order : List Nat) (history : List Message)
    (content : String) (tool_calls : List ToolCall)
    (horder : order.Perm (List.range tool_calls.length)) :
    (ahandle_structured_tool_calls registry parallel_execution order history
        content tool_calls).1 =
      history ++ Message.ai content tool_calls ::
        tool_calls.map (fun tc => (aexecute_single_tool registry tc).tool_message) :=
  ahandle_history_eq registry parallel_execution order history content
    tool_calls horder

/-- Witness for C7 at a concrete input: with three parallel tool calls the
new history is the old history, then the assistant turn, then the three tool
turns in input order. -/
theorem c7_assistant_turn_before_tool_turns_witness :
    (ahandle_structured_tool_calls wRegistry true [2, 0, 1] [Message.human "hi"]
        "c" wCalls).1 =
      [Message.human "hi"] ++ Message.ai "c" wCalls ::
        wCalls.map (fun tc => (aexecute_single_tool wRegistry tc).tool_message) :=
  c7_assistant_turn_before_tool_turns wRegistry true [2, 0, 1]
    [Message.human "hi"] "c" wCalls (by decide)

theorem isSystemMessage_single_tool_message (registry : Registry)
    (tc : ToolCall) :
    isSystemMessage (aexecute_single_tool registry tc).tool_message = false := by
  unfold aexecute_single_tool
  cases execute_tool registry tc.name tc.args <;> rfl

theorem mem_fillSlots (f : Nat → α) (order : List Nat)
    (slots : List (Option α)) (o : Option α) (ho : o ∈ fillSlots f order slots) :
    o ∈ slots ∨ ∃ i, o = some (f i) := by
  induction order generalizing slots with
  | nil => exact Or.inl ho
  | cons j rest ih =>
    rw [fillSlots_cons] at ho
    rcases ih _ ho with hmem | hsome
    · rcases List.mem_or_eq_of_mem_set hmem with h | h
      · exact Or.inl h
      · exact Or.inr ⟨j, h⟩
    · exact Or.inr hsome

theorem parallel_tool_messages_not_system (registry : Registry)
    (tool_calls : List ToolCall) (order : List Nat) (m : Message)
    (hm : m ∈ (aexecute_tools_parallel registry tool_calls order).1) :
    isSystemMessage m = false := by
  unfold aexecute_tools_parallel at hm
  simp only [List.map_map, List.mem_map] at hm
  rcases hm with ⟨o, ho, rfl⟩
  rcases mem_fillSlots _ _ _ _ ho with hrep | ⟨i, rfl⟩
  · rcases List.eq_of_mem_replicate hrep with rfl
    rfl
  · exact isSystemMessage_single_tool_message registry _

theorem ahandle_filter_system (registry : Registry)
    (parallel_execution : Bool) (order : List Nat) (history : List Message)
    (content : String) (tool_calls : List ToolCall) :
    ((ahandle_structured_tool_calls registry parallel_execution order history
        content tool_calls).1).filter isSystemMessage =
      history.filter isSystemMessage := by
  have h_par : List.filter isSystemMessage
      (aexecute_tools_parallel registry tool_calls order).1 = [] :=
    List.filter_eq_nil_iff.mpr (fun m hm => by
      simp [parallel_tool_messages_not_system registry tool_calls order m hm])
  have h_seq : List.filter isSystemMessage
      (aexecute_tools_sequential registry tool_calls).1 = [] :=
    List.filter_eq_nil_iff.mpr (fun m hm => by
      rcases List.mem_map.mp hm with ⟨tc, _, rfl⟩
      simp [isSystemMessage_single_tool_message registry tc])
  unfold ahandle_structured_tool_calls
  by_cases hpar : parallel_execution ∧ tool_calls.length > 1
  · simp only [hpar, if_true, List.filter_append, h_par]
    simp [isSystemMessage]
    intro a ha
    exact parallel_tool_messages_not_system registry tool_calls order a ha
  · simp only [hpar, if_false, List.filter_append, h_seq]
    simp [isSystemMessage]

theorem bedrockLoop_filter_system (model : List Message → List ContentBlock)
    (tools : List (String × BedrockTool)) (fuel : Nat) :
    ∀ (msgs : List Message) (calls : Nat),
      ((bedrockLoop model tools fuel msgs calls).messages).filter isSystemMessage =
        msgs.filter isSystemMessage := by
  induction fuel with
  | zero => intro msgs calls; rfl
  | succ n ih =>
    intro msgs calls
    simp only [bedrockLoop]
    split
    · simp [List.filter_append, isSystemMessage]
    · rw [ih]
      have h_tools : List.filter isSystemMessage
          ((parseBlocks (model msgs)).1.map (fun tc =>
            Message.tool (bedrockExecTool tools tc) (tc.id.getD ""))) = [] :=
        List.filter_eq_nil_iff.mpr (fun m hm => by
          rcases List.mem_map.mp hm with ⟨tc, _, rfl⟩
          simp [isSystemMessage])
      simp [List.filter_append, h_tools, isSystemMessage]

theorem systemPromptInsert_filter (system_prompt : String)
    (history : List Message) :
    (systemPromptInsert system_prompt history).filter isSystemMessage =
      (if system_prompt ≠ "" ∧ history.any isSystemMessage = false then
        history.filter isSystemMessage ++ [Message.system system_prompt]
       else history.filter isSystemMessage) := by
  unfold systemPromptInsert
  by_cases hc : system_prompt ≠ "" ∧ history.any isSystemMessage = false
  · rw [if_pos hc, if_pos hc, List.filter_append]
    rfl
  · rw [if_neg hc, if_neg hc]

/-- Claim C8: any invocation of the agent inserts a system turn at most
once, only when the configured prompt is non-empty and no system turn
exists; when a system turn is already present, the system turns of the
history are unchanged by the whole invocation (all three provider-response
paths only add non-system messages). -/
theorem c8_system_turn_insertion (registry : Registry)
    (parallel_execution : Bool) (order : List Nat) (system_prompt : String)
    (history : List Message) (message : String) (resp : ProviderResponse) :
    (custom_ainvoke registry parallel_execution order system_prompt history
        message resp).filter isSystemMessage =
      (if system_prompt ≠ "" ∧ history.any isSystemMessage = false then
        history.filter isSystemMessage ++ [Message.system system_prompt]
       else history.filter isSystemMessage) := by
  rw [← systemPromptInsert_filter]
  unfold custom_ainvoke
  cases resp with
  | plainText text =>
    simp [List.filter_append, isSystemMessage]
  | structuredToolCalls content tcs =>
    rw [List.filter_append]
    rw [show (ahandle_structured_tool_calls registry parallel_execution order
        (systemPromptInsert system_prompt history ++ [Message.human message])
        content tcs).1.filter isSystemMessage =
      (systemPromptInsert system_prompt history ++
        [Message.human message]).filter isSystemMessage
      from ahandle_filter_system registry parallel_execution order _ content tcs]
    simp [List.filter_append, isSystemMessage]
  | providerManaged model tools =>
    rw [show ((ainvoke_with_tools model tools
        (systemPromptInsert system_prompt history ++
          [Message.human message])).messages).filter isSystemMessage =
      (systemPromptInsert system_prompt history ++
        [Message.human message]).filter isSystemMessage
      from bedrockLoop_filter_system model tools max_iterations _ 0]
    simp [List.filter_append, isSystemMessage]

/-- Claim C9 counterexample: a tool that raises yields a failed result whose
display string is rendered as a generic Tool Error WITHOUT the tool name,
not in the claimed form with the name. -/
theorem c9_counterexample :
    (aexecute_single_tool wRegistry ⟨"boom", [], none⟩).tool_call_info.success = false ∧
    (aexecute_single_tool wRegistry ⟨"boom", [], none⟩).formatted_display =
      "**Tool Error**: boom failed" ∧
    (aexecute_single_tool wRegistry ⟨"boom", [], none⟩).formatted_display ≠
      "**boom Error**: boom failed" := by
  decide

/-- Claim C9 amended: a returned success dict renders as the name followed
by the formatted output, a returned failure dict renders as the name, the
word Error, and the error text, a non-dict value renders like a success, and
a RAISED failure renders as a generic Tool Error with the exception text but
without the tool name. -/
theorem c9_display_format (registry : Registry) (tc : ToolCall) :
    (∀ v, execute_tool registry tc.name tc.args = Except.ok v →
      (match v with
       | .statusDict true fr r _ rep =>
         (aexecute_single_tool registry tc).formatted_display =
           "**" ++ tc.name ++ "**: " ++ fr.getD (r.getD rep)
       | .statusDict false _ _ e _ =>
         (aexecute_single_tool registry tc).formatted_display =
           "**" ++ tc.name ++ " Error**: " ++ e.getD "Unknown error"
       | .plain rep =>
         (aexecute_single_tool registry tc).formatted_display =
           "**" ++ tc.name ++ "**: " ++ rep)) ∧
    (∀ e, execute_tool registry tc.name tc.args = Except.error e →
      (aexecute_single_tool registry tc).formatted_display =
        "**Tool Error**: " ++ e) := by
  constructor
  · intro v hv
    unfold aexecute_single_tool
    rw [hv]
    match v with
    | .statusDict true fr r _ rep => rfl
    | .statusDict false _ _ e _ => rfl
    | .plain rep => rfl
  · intro e he
    unfold aexecute_single_tool
    rw [he]

/-- Witness for the amended C9 at concrete inputs: the success-dict
rendering and the raised-exception rendering. -/
theorem c9_display_format_witness :
    (aexecute_single_tool wRegistry ⟨"calc", [], some "id1"⟩).formatted_display =
      "**calc**: 4" ∧
    (aexecute_single_tool wRegistry ⟨"boom", [], some "id3"⟩).formatted_display =
      "**Tool Error**: boom failed" := by
  have h1 := (c9_display_format wRegistry ⟨"calc", [], some "id1"⟩).1
    (ToolValue.statusDict true (some "4") none none "dict") rfl
  have h2 := (c9_display_format wRegistry ⟨"boom", [], some "id3"⟩).2
    "boom failed" rfl
  exact ⟨h1, h2⟩

/-- Claim C10: a save/load round trip restores exactly the human, system,
assistant and ToolCallMessage entries, in their original order, with role
and content preserved; LangChain ToolMessage entries are omitted and the
tool_calls of assistant messages are not restored. -/
theorem c10_save_load_roundtrip (messages : List Message) :
    load_conversation (save_conversation messages) =
      messages.filterMap reloadedImage := by
  induction messages with
  | nil => rfl
  | cons m rest ih =>
    rw [show save_conversation (m :: rest) =
      (save_conversation [m] ++ save_conversation rest) from by
        simp [save_conversation]]
    rw [show load_conversation (save_conversation [m] ++ save_conversation rest) =
      load_conversation (save_conversation [m]) ++
        load_conversation (save_conversation rest) from by
        simp [load_conversation]]
    rw [ih, List.filterMap_cons]
    cases m with
    | system c => rfl
    | human c => rfl
    | ai c tcs => simp [save_conversation, load_conversation, reloadedImage,
        messageType, messageContent]
    | tool c i => rfl
    | toolCallMessage n p r s => rfl
